import Mathlib

/-! Shallow embedding of the aggregation pipeline of
`scripts/advanced_data_preparation.py` (multi-table Olist variant) and
`scripts/advanced_data_preparation_online_retail.py` (single-table variant).

Conventions of the embedding:
* identifiers (order ids, customer ids, product ids, categories) are `ℕ`;
* prices are exact rationals `ℚ` (the scripts manipulate floats, but every
  claim is about arithmetic identities on the stored values);
* a pandas `NaT` / `NaN` cell is `Option.none`;
* a timestamp carries the calendar month that `dt.to_period` extracts
  (`m : ℤ`, months since an epoch) and the absolute time in days (`t : ℚ`)
  used by timestamp subtraction and `max`;
* `groupby(key)` with pandas defaults enumerates the distinct group keys in
  ascending order and drops rows whose key is missing (`dropna=True`);
  `sortedKeys` models exactly this;
* the float column produced by `pct_change() * 100` is modelled by `Fl`:
  `nan`, `posInf`, `negInf` or a finite rational. -/

/-- Timestamp value: `m` is the month relative to an epoch (what
`dt.to_period` of the script line 62 extracts), `t` the absolute time
measured in days, used by `max` and by timestamp subtraction. -/
structure Timestamp where
  m : ℤ
  t : ℚ
deriving DecidableEq, Repr

/-- One row of `full_data`, the denormalized fact table built at lines 46-52
of `advanced_data_preparation.py` (one row per `order_items` line).
`customer_id`, `order_purchase_timestamp` and `product_category_name` come
through left joins (or the `errors='coerce'` parse at line 34), hence may be
missing. -/
structure FactRow where
  order_id : ℕ
  product_id : ℕ
  price : ℚ
  customer_id : Option ℕ
  order_purchase_timestamp : Option Timestamp
  product_category_name : Option ℕ
deriving DecidableEq, Repr, Inhabited

/-- Float value of the `revenue_growth_rate` column (line 71 of the script):
either NaN (stored as the missing sentinel), an infinity, or a finite value. -/
inductive Fl where
  | nan : Fl
  | posInf : Fl
  | negInf : Fl
  | val : ℚ → Fl
deriving DecidableEq, Repr, Inhabited

/-- IEEE result of `(cur - prev) / prev * 100`, which is what
`Series.pct_change() * 100` computes from two consecutive finite totals:
division by zero gives a signed infinity (NaN for `0 / 0`). -/
def pctChange100 (prev cur : ℚ) : Fl :=
  if prev = 0 then
    if 0 < cur then Fl.posInf else if cur < 0 then Fl.negInf else Fl.nan
  else Fl.val ((cur - prev) / prev * 100)

/-- Insert a key into a strictly sorted duplicate-free list of keys, keeping
it strictly sorted and duplicate-free. -/
def insKey {K : Type} [LinearOrder K] (x : K) : List K → List K
  | [] => [x]
  | y :: ys =>
    if x < y then x :: y :: ys
    else if x = y then y :: ys
    else y :: insKey x ys

/-- Sorted list of the distinct keys of a column: the order in which pandas
`groupby(key, sort=True)` enumerates its groups.  Missing keys have been
removed beforehand (`dropna=True`), so the input is a plain list of keys. -/
def sortedKeys {K : Type} [LinearOrder K] (l : List K) : List K :=
  l.foldr insKey []

/-- Sum of the `price` column over the rows selected by `p`, as computed by
`groupby(...)['price'].sum()` restricted to one group. -/
def sumPricesWith (fact : List FactRow) (p : FactRow → Bool) : ℚ :=
  ((fact.filter p).map FactRow.price).sum

/-- Number of distinct order ids in the group selected by `p`, as computed by
`groupby(...)['order_id'].nunique()`. -/
def nuniqueOrders (fact : List FactRow) (p : FactRow → Bool) : ℕ :=
  ((fact.filter p).map FactRow.order_id).dedup.length

/-- Month key of a fact row (`full_data['order_month']`, line 62): the
month of the purchase timestamp, missing when the timestamp is missing. -/
def monthKey (r : FactRow) : Option ℤ :=
  r.order_purchase_timestamp.map Timestamp.m

/-- Distinct months appearing in the fact table, ascending (the group keys of
`groupby('order_month')`, which drops rows with a missing month). -/
def monthsOf (fact : List FactRow) : List ℤ :=
  sortedKeys (fact.filterMap monthKey)

/-- The `order_month`/`total_revenue` columns of `monthly_revenue`
(lines 65-66): per month, the sum of `price` over that month's rows. -/
def monthlyTotals (fact : List FactRow) : List (ℤ × ℚ) :=
  (monthsOf fact).map
    (fun m => (m, sumPricesWith fact (fun r => decide (monthKey r = some m))))

/-- One row of the persisted `monthly_revenue` table (lines 65-71). -/
structure MonthRow where
  order_month : ℤ
  total_revenue : ℚ
  revenue_growth_rate : Fl
deriving DecidableEq, Repr, Inhabited

/-- Attach the `pct_change() * 100` column: the first row (no previous value)
gets NaN, every later row compares with the value of the row just before. -/
def addGrowth : Option ℚ → List (ℤ × ℚ) → List MonthRow
  | _, [] => []
  | prev, (m, v) :: rest =>
    { order_month := m, total_revenue := v,
      revenue_growth_rate :=
        match prev with
        | none => Fl.nan
        | some p => pctChange100 p v } :: addGrowth (some v) rest

/-- The `monthly_revenue` table (lines 65-71 of the script). -/
def monthly_revenue (fact : List FactRow) : List MonthRow :=
  addGrowth none (monthlyTotals fact)

/-- Distinct order ids of the fact table, ascending (`groupby('order_id')`,
line 78; the order id column of `full_data` has no missing values). -/
def ordersOf (fact : List FactRow) : List ℕ :=
  sortedKeys (fact.map FactRow.order_id)

/-- One row of the persisted `order_values` table (line 78). -/
structure OrderRow where
  order_id : ℕ
  order_value : ℚ
deriving DecidableEq, Repr, Inhabited

/-- The `order_values` table (line 78): per order, the sum of `price`. -/
def order_values (fact : List FactRow) : List OrderRow :=
  (ordersOf fact).map
    (fun o => { order_id := o,
                order_value := sumPricesWith fact (fun r => decide (r.order_id = o)) })

/-- Distinct customer ids of the fact table, ascending
(`groupby('customer_id')`, lines 86-94; rows with a missing id are dropped). -/
def customersOf (fact : List FactRow) : List ℕ :=
  sortedKeys (fact.filterMap FactRow.customer_id)

/-- Maximum of a list of timestamps by absolute time (`Series.max`, which
skips missing values: the input list holds the present values only). -/
def maxTs : List Timestamp → Option Timestamp
  | [] => none
  | x :: xs =>
    match maxTs xs with
    | none => some x
    | some y => some (if x.t < y.t then y else x)

/-- The global reference date (line 93): the maximum purchase timestamp over
the whole fact table. -/
def reference_date (fact : List FactRow) : Option Timestamp :=
  maxTs (fact.filterMap FactRow.order_purchase_timestamp)

/-- A customer's last order date (lines 94-96): maximum purchase timestamp
over that customer's rows. -/
def customer_last_order (fact : List FactRow) (c : ℕ) : Option Timestamp :=
  maxTs ((fact.filter (fun r => decide (r.customer_id = some c))).filterMap
    FactRow.order_purchase_timestamp)

/-- The `recency_days` column (line 97): whole days between the reference
date and the customer's last order date, missing when either is missing
(`Timedelta.days` floors the day count). -/
def recencyDays (fact : List FactRow) (c : ℕ) : Option ℤ :=
  match reference_date fact, customer_last_order fact c with
  | some a, some b => some ⌊a.t - b.t⌋
  | _, _ => none

/-- One row of the persisted `customer_features` table (lines 86-101). -/
structure CustomerRow where
  customer_id : ℕ
  total_spent : ℚ
  order_frequency : ℕ
  recency_days : Option ℤ
deriving DecidableEq, Repr, Inhabited

/-- The `customer_features` table (lines 86-101): per customer, total
spending, number of distinct orders, and recency in days. -/
def customer_features (fact : List FactRow) : List CustomerRow :=
  (customersOf fact).map
    (fun c =>
      { customer_id := c,
        total_spent := sumPricesWith fact (fun r => decide (r.customer_id = some c)),
        order_frequency := nuniqueOrders fact (fun r => decide (r.customer_id = some c)),
        recency_days := recencyDays fact c })

/-- Distinct product categories of the fact table, ascending
(`groupby('product_category_name')`, lines 108-115; rows with a missing
category are dropped). -/
def categoriesOf (fact : List FactRow) : List ℕ :=
  sortedKeys (fact.filterMap FactRow.product_category_name)

/-- One row of the persisted `product_performance` table (lines 108-118). -/
structure ProdRow where
  product_category_name : ℕ
  total_sales : ℚ
  order_count : ℕ
deriving DecidableEq, Repr, Inhabited

/-- The `product_performance` table (lines 108-118): per category, total
sales and number of distinct orders. -/
def product_performance (fact : List FactRow) : List ProdRow :=
  (categoriesOf fact).map
    (fun g =>
      { product_category_name := g,
        total_sales := sumPricesWith fact (fun r => decide (r.product_category_name = some g)),
        order_count := nuniqueOrders fact (fun r => decide (r.product_category_name = some g)) })

/-- One row of the raw `order_items` table (columns used by the pipeline). -/
structure OrderItem where
  order_id : ℕ
  product_id : ℕ
  price : ℚ
deriving DecidableEq, Repr

/-- One row of the raw `orders` table after the date conversion of line 34:
an unparsable timestamp has been coerced to the missing marker. -/
structure OrderRec where
  order_id : ℕ
  customer_id : ℕ
  order_purchase_timestamp : Option Timestamp
deriving DecidableEq, Repr

/-- One row of the raw `customers` table (only the join key matters to the
pipeline's aggregations). -/
structure CustomerRec where
  customer_id : ℕ
deriving DecidableEq, Repr

/-- One row of the raw `products` table; the category cell may be missing. -/
structure ProductRec where
  product_id : ℕ
  product_category_name : Option ℕ
deriving DecidableEq, Repr

/-- Result rows a single left row produces in `pd.merge(..., how='left')`:
one row per matching right row, or a single row with the missing marker when
no right row matches (a missing key matches nothing). -/
def joinRow {A B K : Type} [DecidableEq K]
    (a : A) (lk : A → Option K) (rs : List B) (rk : B → Option K) :
    List (A × Option B) :=
  let ms := rs.filter (fun b => decide (lk a ≠ none ∧ lk a = rk b))
  if ms.isEmpty then [(a, none)] else ms.map (fun b => (a, some b))

/-- Pandas `pd.merge(ls, rs, on=key, how='left')`: each left row is paired
with every right row whose key equals its own; a left row with no match is
kept once, paired with the missing marker. -/
def leftJoinO {A B K : Type} [DecidableEq K]
    (ls : List A) (lk : A → Option K) (rs : List B) (rk : B → Option K) :
    List (A × Option B) :=
  ls.flatMap (fun a => joinRow a lk rs rk)

/-- Lines 46-52 of `advanced_data_preparation.py`: left-join `order_items`
with `orders` on `order_id`, then with `customers` on `customer_id`, then
with `products` on `product_id`, and read each resulting row as a fact row
(attributes of an unmatched right side are missing). -/
def full_data (order_items : List OrderItem) (orders : List OrderRec)
    (customers : List CustomerRec) (products : List ProductRec) :
    List FactRow :=
  (leftJoinO
      (leftJoinO
        (leftJoinO order_items (fun it => some it.order_id)
          orders (fun o => some o.order_id))
        (fun p => p.2.map OrderRec.customer_id)
        customers (fun c => some c.customer_id))
      (fun p => some p.1.1.product_id)
      products (fun pr => some pr.product_id)).map
    (fun p =>
      { order_id := p.1.1.1.order_id,
        product_id := p.1.1.1.product_id,
        price := p.1.1.1.price,
        customer_id := p.1.1.2.map OrderRec.customer_id,
        order_purchase_timestamp :=
          p.1.1.2.bind OrderRec.order_purchase_timestamp,
        product_category_name := p.2.bind ProductRec.product_category_name })

/-- Column names occurring in either variant of the pipeline. -/
inductive Col where
  | order_id : Col
  | customer_id : Col
  | product_id : Col
  | order_purchase_timestamp : Col
  | price : Col
  | product_category_name : Col
  | invoiceNo : Col
  | stockCode : Col
  | descriptionCol : Col
  | quantity : Col
  | invoiceDate : Col
  | unitPrice : Col
  | customerID : Col
  | other : ℕ → Col
deriving DecidableEq, Repr

/-- Names of the four persisted output tables (lines 131-134). -/
inductive TabName where
  | monthly_revenue : TabName
  | order_values : TabName
  | customer_features : TabName
  | product_performance : TabName
deriving DecidableEq, Repr

/-- Error raised by a step of the pipeline: the KeyError pandas raises when a
required column is absent from a frame. -/
inductive PipeErr where
  | keyError : Col → PipeErr
deriving DecidableEq, Repr

/-- Column sets of the four raw sources of the multi-table variant. -/
structure MultiCols where
  orders_cols : List Col
  order_items_cols : List Col
  customers_cols : List Col
  products_cols : List Col

/-- Columns of `full_data` when all three merges succeed: the merged frame
carries the columns of all four sources. -/
def allColsOf (t : MultiCols) : List Col :=
  ((t.order_items_cols ++ t.orders_cols) ++ t.customers_cols) ++ t.products_cols

/-- Control-flow skeleton of `advanced_data_preparation.py` at the schema
level.  Each test reproduces, in source order, a statement that raises a
KeyError when a column is absent: the three `pd.merge` calls of lines 46-52
(a merge raises when its key is missing from either operand), the column
accesses of lines 62 and 65 (`order_purchase_timestamp`, `price`; the check
at line 33 only prints a warning and aborts nothing), and the `groupby`
keys of lines 78, 86 and 108.  All four `to_sql` writes sit at lines
131-134, after every such statement, so the write list is produced only
when every step has succeeded. -/
def runMultiSchema (t : MultiCols) : Except PipeErr (List TabName) :=
  if Col.order_id ∈ t.order_items_cols ∧ Col.order_id ∈ t.orders_cols then
    if Col.customer_id ∈ t.order_items_cols ++ t.orders_cols ∧
        Col.customer_id ∈ t.customers_cols then
      if Col.product_id ∈ (t.order_items_cols ++ t.orders_cols) ++ t.customers_cols ∧
          Col.product_id ∈ t.products_cols then
        if Col.order_purchase_timestamp ∈ allColsOf t then
          if Col.price ∈ allColsOf t then
            if Col.order_id ∈ allColsOf t then
              if Col.customer_id ∈ allColsOf t then
                if Col.product_category_name ∈ allColsOf t then
                  Except.ok [TabName.monthly_revenue, TabName.order_values,
                    TabName.customer_features, TabName.product_performance]
                else Except.error (PipeErr.keyError Col.product_category_name)
              else Except.error (PipeErr.keyError Col.customer_id)
            else Except.error (PipeErr.keyError Col.order_id)
          else Except.error (PipeErr.keyError Col.price)
        else Except.error (PipeErr.keyError Col.order_purchase_timestamp)
      else Except.error (PipeErr.keyError Col.product_id)
    else Except.error (PipeErr.keyError Col.customer_id)
  else Except.error (PipeErr.keyError Col.order_id)

/-- The `required_columns` list of lines 20-23 of
`advanced_data_preparation_online_retail.py`. -/
def requiredColumnsOnline : List Col :=
  [Col.invoiceNo, Col.stockCode, Col.descriptionCol, Col.quantity,
   Col.invoiceDate, Col.unitPrice, Col.customerID]

/-- Control-flow skeleton of `advanced_data_preparation_online_retail.py` at
the schema level: lines 21-23 raise a KeyError as soon as one required
column is absent, before any aggregation or write (the writes sit at lines
84-87); every column the later steps access is in `required_columns`. -/
def runOnlineSchema (cols : List Col) : Except PipeErr (List TabName) :=
  match requiredColumnsOnline.find? (fun c => decide (c ∉ cols)) with
  | some c => Except.error (PipeErr.keyError c)
  | none =>
    Except.ok [TabName.monthly_revenue, TabName.order_values,
      TabName.customer_features, TabName.product_performance]

/-- State of the SQLite store `ecommerce_advanced.db`: one slot per output
table (`none` when the table does not exist yet) plus the unrelated tables
the database may hold, which the pipeline never touches. -/
structure Store where
  monthly_revenue_tab : Option (List MonthRow)
  order_values_tab : Option (List OrderRow)
  customer_features_tab : Option (List CustomerRow)
  product_performance_tab : Option (List ProdRow)
  other_tabs : List ℕ
deriving DecidableEq, Repr

/-- Lines 131-134: each `to_sql(..., if_exists='replace')` call replaces its
table wholesale with the freshly computed aggregate; nothing else of the
store is touched. -/
def persistRun (fact : List FactRow) (s : Store) : Store :=
  { monthly_revenue_tab := some (monthly_revenue fact),
    order_values_tab := some (order_values fact),
    customer_features_tab := some (customer_features fact),
    product_performance_tab := some (product_performance fact),
    other_tabs := s.other_tabs }

/-- The four raw sources of the multi-table variant. -/
structure SourceTables where
  orders : List OrderRec
  order_items : List OrderItem
  customers : List CustomerRec
  products : List ProductRec

/-- One full run of the pipeline against a store: build the fact table from
the sources, recompute the four aggregates from scratch, and replace the
four persisted tables. -/
def runPipelineStore (inp : SourceTables) (s : Store) : Store :=
  persistRun (full_data inp.order_items inp.orders inp.customers inp.products) s

/-! Helper lemmas about the grouping machinery. -/

theorem mem_insKey {K : Type} [LinearOrder K] (x a : K) (l : List K) :
    a ∈ insKey x l ↔ a = x ∨ a ∈ l := by
  induction l with
  | nil => simp [insKey]
  | cons y ys ih =>
    by_cases h1 : x < y
    · simp only [insKey, if_pos h1, List.mem_cons]
    · by_cases h2 : x = y
      · subst h2
        have hx : insKey x (x :: ys) = x :: ys := by
          show (if x < x then x :: x :: ys
            else if x = x then x :: ys else x :: insKey x ys) = x :: ys
          rw [if_neg h1, if_pos rfl]
        rw [hx, List.mem_cons]
        tauto
      · simp only [insKey, if_neg h1, if_neg h2, List.mem_cons, ih]
        tauto

theorem pairwise_insKey {K : Type} [LinearOrder K] (x : K) (l : List K)
    (h : l.Pairwise (· < ·)) : (insKey x l).Pairwise (· < ·) := by
  induction l with
  | nil => simp [insKey]
  | cons y ys ih =>
    rcases List.pairwise_cons.mp h with ⟨hy, hys⟩
    by_cases h1 : x < y
    · simp only [insKey, if_pos h1]
      refine List.pairwise_cons.mpr ⟨?_, h⟩
      intro a ha
      rcases List.mem_cons.mp ha with rfl | ha'
      · exact h1
      · exact h1.trans (hy a ha')
    · by_cases h2 : x = y
      · simpa only [insKey, if_neg h1, if_pos h2] using h
      · have hyx : y < x := lt_of_le_of_ne (not_lt.mp h1) (Ne.symm h2)
        simp only [insKey, if_neg h1, if_neg h2]
        refine List.pairwise_cons.mpr ⟨?_, ih hys⟩
        intro a ha
        rcases (mem_insKey x a ys).mp ha with rfl | ha'
        · exact hyx
        · exact hy a ha'

theorem mem_sortedKeys {K : Type} [LinearOrder K] (a : K) (l : List K) :
    a ∈ sortedKeys l ↔ a ∈ l := by
  induction l with
  | nil => simp [sortedKeys]
  | cons x xs ih =>
    show a ∈ insKey x (sortedKeys xs) ↔ a ∈ x :: xs
    rw [mem_insKey, ih, List.mem_cons]

theorem pairwise_sortedKeys {K : Type} [LinearOrder K] (l : List K) :
    (sortedKeys l).Pairwise (· < ·) := by
  induction l with
  | nil => simp [sortedKeys]
  | cons x xs ih => exact pairwise_insKey x _ ih

theorem nodup_sortedKeys {K : Type} [LinearOrder K] (l : List K) :
    (sortedKeys l).Nodup :=
  (pairwise_sortedKeys l).imp (fun h => ne_of_lt h)

theorem sumPricesWith_nil (p : FactRow → Bool) : sumPricesWith [] p = 0 := rfl

theorem sumPricesWith_cons (r : FactRow) (rows : List FactRow) (p : FactRow → Bool) :
    sumPricesWith (r :: rows) p
      = (if p r then r.price else 0) + sumPricesWith rows p := by
  by_cases h : p r <;> simp [sumPricesWith, List.filter_cons, h]

theorem sumPricesWith_append (l1 l2 : List FactRow) (p : FactRow → Bool) :
    sumPricesWith (l1 ++ l2) p = sumPricesWith l1 p + sumPricesWith l2 p := by
  simp [sumPricesWith, List.filter_append]

theorem sum_map_ite_eq {K : Type} [DecidableEq K] (l : List K) (k0 : K) (q : ℚ)
    (hnd : l.Nodup) (hk : k0 ∈ l) :
    (l.map (fun k => if k0 = k then q else 0)).sum = q := by
  induction l with
  | nil => cases hk
  | cons x xs ih =>
    rcases List.nodup_cons.mp hnd with ⟨hx, hxs⟩
    rcases List.mem_cons.mp hk with rfl | hk'
    · have h0 : (xs.map (fun k => if k0 = k then q else 0)).sum = 0 := by
        apply List.sum_eq_zero
        intro y hy
        rcases List.mem_map.mp hy with ⟨k, hkx, rfl⟩
        rw [if_neg]
        rintro rfl
        exact hx hkx
      simp [h0]
    · have hne : k0 ≠ x := by
        rintro rfl
        exact hx hk'
      simp only [List.map_cons, List.sum_cons, if_neg hne, zero_add]
      exact ih hxs hk'

theorem sum_groups {K : Type} [DecidableEq K]
    (key : FactRow → Option K) (rows : List FactRow) (keys : List K)
    (hnd : keys.Nodup)
    (hcov : ∀ r ∈ rows, ∀ k, key r = some k → k ∈ keys) :
    (keys.map (fun k => sumPricesWith rows (fun r => decide (key r = some k)))).sum
      = sumPricesWith rows (fun r => (key r).isSome) := by
  induction rows with
  | nil => simp [sumPricesWith]
  | cons r rest ih =>
    have hcov' : ∀ x ∈ rest, ∀ k, key x = some k → k ∈ keys :=
      fun x hx => hcov x (List.mem_cons_of_mem r hx)
    simp only [sumPricesWith_cons, List.sum_map_add]
    rw [ih hcov']
    cases hkr : key r with
    | none =>
      have hz : (keys.map
          (fun k => if decide ((none : Option K) = some k) then r.price else 0)).sum = 0 := by
        apply List.sum_eq_zero
        intro y hy
        rcases List.mem_map.mp hy with ⟨k, _, rfl⟩
        simp
      rw [hz]
      simp
    | some k0 =>
      have hmap : (keys.map
            (fun k => if decide ((some k0 : Option K) = some k) then r.price else 0))
          = keys.map (fun k => if k0 = k then r.price else 0) := by
        apply List.map_congr_left
        intro k _
        by_cases hk : k0 = k
        · simp [hk]
        · simp [hk]
      rw [hmap, sum_map_ite_eq keys k0 r.price hnd (hcov r (List.mem_cons_self r rest) k0 hkr)]
      simp

theorem addGrowth_length (p : Option ℚ) (l : List (ℤ × ℚ)) :
    (addGrowth p l).length = l.length := by
  induction l generalizing p with
  | nil => rfl
  | cons a rest ih =>
    obtain ⟨m, v⟩ := a
    simp [addGrowth, ih]

theorem addGrowth_map_total (p : Option ℚ) (l : List (ℤ × ℚ)) :
    (addGrowth p l).map MonthRow.total_revenue = l.map Prod.snd := by
  induction l generalizing p with
  | nil => rfl
  | cons a rest ih =>
    obtain ⟨m, v⟩ := a
    simp [addGrowth, ih]

theorem addGrowth_map_month (p : Option ℚ) (l : List (ℤ × ℚ)) :
    (addGrowth p l).map MonthRow.order_month = l.map Prod.fst := by
  induction l generalizing p with
  | nil => rfl
  | cons a rest ih =>
    obtain ⟨m, v⟩ := a
    simp [addGrowth, ih]

theorem addGrowth_get_total (p : Option ℚ) (l : List (ℤ × ℚ)) (i : ℕ)
    (h : i < (addGrowth p l).length) (h' : i < l.length) :
    ((addGrowth p l).get ⟨i, h⟩).total_revenue = (l.get ⟨i, h'⟩).2 := by
  induction l generalizing p i with
  | nil => exact absurd h' (Nat.not_lt_zero i)
  | cons a rest ih =>
    obtain ⟨m, v⟩ := a
    cases i with
    | zero => rfl
    | succ j =>
      exact ih (some v) j (Nat.lt_of_succ_lt_succ (by simpa [addGrowth, addGrowth_length] using h))
        (Nat.lt_of_succ_lt_succ h')

theorem addGrowth_get_growth_zero (q : ℚ) (l : List (ℤ × ℚ))
    (h : 0 < (addGrowth (some q) l).length) (h' : 0 < l.length) :
    ((addGrowth (some q) l).get ⟨0, h⟩).revenue_growth_rate
      = pctChange100 q (l.get ⟨0, h'⟩).2 := by
  cases l with
  | nil => exact absurd h' (Nat.not_lt_zero 0)
  | cons a rest =>
    obtain ⟨m, v⟩ := a
    rfl

theorem addGrowth_get_growth_succ (p : Option ℚ) (l : List (ℤ × ℚ)) (i : ℕ)
    (h : i + 1 < (addGrowth p l).length) (h0 : i < l.length) (h1 : i + 1 < l.length) :
    ((addGrowth p l).get ⟨i + 1, h⟩).revenue_growth_rate
      = pctChange100 (l.get ⟨i, h0⟩).2 (l.get ⟨i + 1, h1⟩).2 := by
  induction l generalizing p i with
  | nil => exact absurd h0 (Nat.not_lt_zero i)
  | cons a rest ih =>
    obtain ⟨m, v⟩ := a
    cases i with
    | zero =>
      exact addGrowth_get_growth_zero v rest
        (Nat.lt_of_succ_lt_succ (by simpa [addGrowth, addGrowth_length] using h))
        (Nat.lt_of_succ_lt_succ h1)
    | succ j =>
      exact ih (some v) j
        (Nat.lt_of_succ_lt_succ (by simpa [addGrowth, addGrowth_length] using h))
        (Nat.lt_of_succ_lt_succ h0) (Nat.lt_of_succ_lt_succ h1)

theorem addGrowth_head_none (l : List (ℤ × ℚ)) (h : 0 < (addGrowth none l).length) :
    ((addGrowth none l).get ⟨0, h⟩).revenue_growth_rate = Fl.nan := by
  cases l with
  | nil => exact absurd h (by simp [addGrowth])
  | cons a rest =>
    obtain ⟨m, v⟩ := a
    rfl

theorem maxTs_eq_none (l : List Timestamp) : maxTs l = none ↔ l = [] := by
  cases l with
  | nil => simp [maxTs]
  | cons x xs =>
    simp only [maxTs]
    cases maxTs xs <;> simp

theorem maxTs_mem (l : List Timestamp) (a : Timestamp) (h : maxTs l = some a) :
    a ∈ l := by
  induction l generalizing a with
  | nil => cases h
  | cons x xs ih =>
    simp only [maxTs] at h
    cases hm : maxTs xs with
    | none =>
      rw [hm] at h
      simp only [Option.some.injEq] at h
      subst h
      exact List.mem_cons_self x xs
    | some y =>
      rw [hm] at h
      simp only [Option.some.injEq] at h
      by_cases hc : x.t < y.t
      · rw [if_pos hc] at h
        subst h
        exact List.mem_cons_of_mem x (ih y hm)
      · rw [if_neg hc] at h
        subst h
        exact List.mem_cons_self x xs

theorem maxTs_le (l : List Timestamp) (a : Timestamp) (h : maxTs l = some a) :
    ∀ x ∈ l, x.t ≤ a.t := by
  induction l generalizing a with
  | nil => intro x hx; cases hx
  | cons z xs ih =>
    intro x hx
    simp only [maxTs] at h
    cases hm : maxTs xs with
    | none =>
      rw [hm] at h
      simp only [Option.some.injEq] at h
      subst h
      have hxs : xs = [] := (maxTs_eq_none xs).mp hm
      subst hxs
      rcases List.mem_cons.mp hx with rfl | hx'
      · exact le_refl x.t
      · cases hx'
    | some y =>
      rw [hm] at h
      simp only [Option.some.injEq] at h
      rcases List.mem_cons.mp hx with rfl | hx'
      · by_cases hc : x.t < y.t
        · rw [if_pos hc] at h
          subst h
          exact le_of_lt hc
        · rw [if_neg hc] at h
          subst h
          exact le_refl x.t
      · have hxy : x.t ≤ y.t := ih y hm x hx'
        by_cases hc : z.t < y.t
        · rw [if_pos hc] at h
          subst h
          exact hxy
        · rw [if_neg hc] at h
          subst h
          exact hxy.trans (not_lt.mp hc)

theorem joinRow_length_pos {A B K : Type} [DecidableEq K]
    (a : A) (lk : A → Option K) (rs : List B) (rk : B → Option K) :
    0 < (joinRow a lk rs rk).length := by
  unfold joinRow
  by_cases h : (rs.filter (fun b => decide (lk a ≠ none ∧ lk a = rk b))).isEmpty
  · rw [if_pos h]
    exact Nat.zero_lt_one
  · rw [if_neg h]
    simp only [List.length_map]
    exact List.length_pos.mpr (fun hnil => h (by rw [hnil]; rfl))

theorem joinRow_fst {A B K : Type} [DecidableEq K]
    (a : A) (lk : A → Option K) (rs : List B) (rk : B → Option K)
    (x : A × Option B) (hx : x ∈ joinRow a lk rs rk) : x.1 = a := by
  unfold joinRow at hx
  by_cases h : (rs.filter (fun b => decide (lk a ≠ none ∧ lk a = rk b))).isEmpty
  · rw [if_pos h] at hx
    rcases List.mem_singleton.mp hx with rfl
    rfl
  · rw [if_neg h] at hx
    rcases List.mem_map.mp hx with ⟨b, _, rfl⟩
    rfl

theorem joinRow_exists {A B K : Type} [DecidableEq K]
    (a : A) (lk : A → Option K) (rs : List B) (rk : B → Option K) :
    ∃ ob, (a, ob) ∈ joinRow a lk rs rk := by
  unfold joinRow
  by_cases h : (rs.filter (fun b => decide (lk a ≠ none ∧ lk a = rk b))).isEmpty
  · exact ⟨none, by rw [if_pos h]; exact List.mem_singleton.mpr rfl⟩
  · have hne : (rs.filter (fun b => decide (lk a ≠ none ∧ lk a = rk b))) ≠ [] :=
      fun hnil => h (by rw [hnil]; rfl)
    rcases List.exists_mem_of_ne_nil _ hne with ⟨b, hb⟩
    exact ⟨some b, by rw [if_neg h]; exact List.mem_map.mpr ⟨b, hb, rfl⟩⟩

theorem joinRow_length_eq_one {A B K : Type} [DecidableEq K]
    (a : A) (lk : A → Option K) (rs : List B) (rk : B → Option K)
    (h : (rs.filter (fun b => decide (lk a ≠ none ∧ lk a = rk b))).length ≤ 1) :
    (joinRow a lk rs rk).length = 1 := by
  unfold joinRow
  by_cases he : (rs.filter (fun b => decide (lk a ≠ none ∧ lk a = rk b))).isEmpty
  · rw [if_pos he]
    rfl
  · rw [if_neg he]
    simp only [List.length_map]
    have h1 : 0 < (rs.filter (fun b => decide (lk a ≠ none ∧ lk a = rk b))).length :=
      List.length_pos.mpr (fun hnil => he (by rw [hnil]; rfl))
    omega

theorem leftJoinO_length_ge {A B K : Type} [DecidableEq K]
    (ls : List A) (lk : A → Option K) (rs : List B) (rk : B → Option K) :
    ls.length ≤ (leftJoinO ls lk rs rk).length := by
  induction ls with
  | nil => simp [leftJoinO]
  | cons a ls ih =>
    simp only [leftJoinO, List.flatMap_cons, List.length_append, List.length_cons]
    simp only [leftJoinO] at ih
    have := joinRow_length_pos a lk rs rk
    omega

theorem leftJoinO_length_eq {A B K : Type} [DecidableEq K]
    (ls : List A) (lk : A → Option K) (rs : List B) (rk : B → Option K)
    (h : ∀ a ∈ ls, (rs.filter (fun b => decide (lk a ≠ none ∧ lk a = rk b))).length ≤ 1) :
    (leftJoinO ls lk rs rk).length = ls.length := by
  induction ls with
  | nil => simp [leftJoinO]
  | cons a ls ih =>
    simp only [leftJoinO, List.flatMap_cons, List.length_append, List.length_cons]
    simp only [leftJoinO] at ih
    rw [joinRow_length_eq_one a lk rs rk (h a (List.mem_cons_self a ls)),
      ih (fun x hx => h x (List.mem_cons_of_mem a hx))]
    omega

theorem leftJoinO_mem {A B K : Type} [DecidableEq K]
    (ls : List A) (lk : A → Option K) (rs : List B) (rk : B → Option K)
    (a : A) (ha : a ∈ ls) : ∃ ob, (a, ob) ∈ leftJoinO ls lk rs rk := by
  induction ls with
  | nil => cases ha
  | cons x ls ih =>
    rcases List.mem_cons.mp ha with rfl | ha'
    · rcases joinRow_exists a lk rs rk with ⟨ob, hob⟩
      exact ⟨ob, by
        simp only [leftJoinO, List.flatMap_cons, List.mem_append]
        exact Or.inl hob⟩
    · rcases ih ha' with ⟨ob, hob⟩
      exact ⟨ob, by
        simp only [leftJoinO, List.flatMap_cons, List.mem_append]
        simp only [leftJoinO] at hob
        exact Or.inr hob⟩

theorem filterMap_monthKey_filter (fact : List FactRow) :
    (fact.filter (fun r => r.order_purchase_timestamp.isSome)).filterMap monthKey
      = fact.filterMap monthKey := by
  induction fact with
  | nil => rfl
  | cons r rest ih =>
    cases hts : r.order_purchase_timestamp with
    | none => simp [List.filter_cons, List.filterMap_cons, hts, monthKey, ih]
    | some ts => simp [List.filter_cons, List.filterMap_cons, hts, monthKey, ih]

theorem sumPricesWith_month_filter (fact : List FactRow) (m : ℤ) :
    sumPricesWith (fact.filter (fun r => r.order_purchase_timestamp.isSome))
        (fun r => decide (monthKey r = some m))
      = sumPricesWith fact (fun r => decide (monthKey r = some m)) := by
  induction fact with
  | nil => rfl
  | cons r rest ih =>
    cases hts : r.order_purchase_timestamp with
    | none =>
      have hk : monthKey r = none := by simp [monthKey, hts]
      simp [List.filter_cons, hts, sumPricesWith_cons, hk, ih]
    | some ts =>
      simp only [List.filter_cons, hts, Option.isSome_some, if_pos]
      rw [sumPricesWith_cons, sumPricesWith_cons, ih]

/-! Claim theorems. -/

/-- Source tables whose joined fact table has one row with a parsable
purchase timestamp and one row whose timestamp was coerced to missing. -/
def itemsC1 : List OrderItem := [⟨1, 1, 5⟩, ⟨2, 1, 10⟩]

def ordersC1 : List OrderRec := [⟨1, 1, none⟩, ⟨2, 2, some ⟨0, 0⟩⟩]

def customersC1 : List CustomerRec := [⟨1⟩, ⟨2⟩]

def productsC1 : List ProductRec := [⟨1, some 1⟩]

def factC1 : List FactRow := full_data itemsC1 ordersC1 customersC1 productsC1

/-- C1 counterexample: a non-empty fact table with one missing-timestamp row
(price 5) and one dated row (price 10); the sum of `total_revenue` over
`monthly_revenue` is 10 while the sum of `price` over the whole fact table
is 15, so the claimed conservation fails. -/
theorem c1_counterexample :
    factC1 ≠ [] ∧
    ((monthly_revenue factC1).map MonthRow.total_revenue).sum
      ≠ (factC1.map FactRow.price).sum := by
  have hfact : factC1
      = [⟨1, 1, 5, some 1, none, some 1⟩,
         ⟨2, 1, 10, some 2, some ⟨0, 0⟩, some 1⟩] := rfl
  refine ⟨by simp [hfact], ?_⟩
  rw [hfact]
  norm_num +decide [monthly_revenue, monthlyTotals, monthsOf, sortedKeys, insKey,
    monthKey, sumPricesWith, addGrowth, List.filter]

/-- C1 (amended): for every non-empty fact table, the sum of `total_revenue`
over all rows of `monthly_revenue` equals the sum of `price` over the rows
whose purchase timestamp is present; rows with a missing timestamp are
dropped by the month grouping. -/
theorem c1_revenue_conservation_amended (fact : List FactRow) (h : fact ≠ []) :
    ((monthly_revenue fact).map MonthRow.total_revenue).sum
      = sumPricesWith fact (fun r => r.order_purchase_timestamp.isSome) := by
  unfold monthly_revenue
  rw [addGrowth_map_total]
  unfold monthlyTotals
  rw [List.map_map]
  have hcomp : (Prod.snd ∘ fun m =>
      (m, sumPricesWith fact (fun r => decide (monthKey r = some m))))
      = fun m => sumPricesWith fact (fun r => decide (monthKey r = some m)) := rfl
  rw [hcomp]
  have hcov : ∀ r ∈ fact, ∀ k, monthKey r = some k → k ∈ monthsOf fact := by
    intro r hr k hk
    unfold monthsOf
    rw [mem_sortedKeys]
    exact List.mem_filterMap.mpr ⟨r, hr, hk⟩
  rw [sum_groups monthKey fact (monthsOf fact) (nodup_sortedKeys _) hcov]
  congr 1
  funext r
  cases hts : r.order_purchase_timestamp <;> simp [monthKey, hts]

/-- C1 witness: a concrete non-empty fact table on which the amended
conservation identity is discharged. -/
theorem c1_witness :
    factC1 ≠ [] ∧
    ((monthly_revenue factC1).map MonthRow.total_revenue).sum
      = sumPricesWith factC1 (fun r => r.order_purchase_timestamp.isSome) :=
  ⟨by simp [show factC1
      = [⟨1, 1, 5, some 1, none, some 1⟩,
         ⟨2, 1, 10, some 2, some ⟨0, 0⟩, some 1⟩] from rfl],
   c1_revenue_conservation_amended factC1 (by
    simp [show factC1
      = [⟨1, 1, 5, some 1, none, some 1⟩,
         ⟨2, 1, 10, some 2, some ⟨0, 0⟩, some 1⟩] from rfl])⟩

theorem getD_of_lt {A : Type} [Inhabited A] (l : List A) (i : ℕ) (h : i < l.length) :
    l.getD i default = l.get ⟨i, h⟩ := by
  rw [List.getD_eq_getElem?_getD, List.getElem?_eq_getElem h]
  rfl

/-- C2: rows of `monthly_revenue` are in strictly increasing month order
(hence adjacent rows are chronologically consecutive), and whenever the
previous row's total revenue v1 is positive, the growth rate of the next row
is exactly (v2 - v1) / v1 * 100. -/
theorem c2_growth_rate_formula (fact : List FactRow) (i : ℕ)
    (h1 : i + 1 < (monthly_revenue fact).length)
    (hpos : 0 < ((monthly_revenue fact).getD i default).total_revenue) :
    List.Pairwise (· < ·) ((monthly_revenue fact).map MonthRow.order_month) ∧
    ((monthly_revenue fact).getD (i + 1) default).revenue_growth_rate
      = Fl.val ((((monthly_revenue fact).getD (i + 1) default).total_revenue
          - ((monthly_revenue fact).getD i default).total_revenue)
          / ((monthly_revenue fact).getD i default).total_revenue * 100) := by
  have h0 : i < (monthly_revenue fact).length := Nat.lt_of_succ_lt h1
  constructor
  · rw [show (monthly_revenue fact).map MonthRow.order_month
        = (monthlyTotals fact).map Prod.fst from addGrowth_map_month none _]
    unfold monthlyTotals
    rw [List.map_map]
    rw [show (Prod.fst ∘ fun m =>
        (m, sumPricesWith fact (fun r => decide (monthKey r = some m)))) = id from rfl]
    rw [List.map_id]
    exact pairwise_sortedKeys _
  · rw [getD_of_lt (monthly_revenue fact) (i + 1) h1,
      getD_of_lt (monthly_revenue fact) i h0]
    rw [getD_of_lt (monthly_revenue fact) i h0] at hpos
    have hlen0 : i < (monthlyTotals fact).length := by
      rw [← addGrowth_length none (monthlyTotals fact)]
      exact h0
    have hlen1 : i + 1 < (monthlyTotals fact).length := by
      rw [← addGrowth_length none (monthlyTotals fact)]
      exact h1
    have hg := addGrowth_get_growth_succ none (monthlyTotals fact) i h1 hlen0 hlen1
    have ht0 := addGrowth_get_total none (monthlyTotals fact) i h0 hlen0
    have ht1 := addGrowth_get_total none (monthlyTotals fact) (i + 1) h1 hlen1
    have hpos' : 0 < ((monthlyTotals fact).get ⟨i, hlen0⟩).2 := by
      rw [← ht0]
      exact hpos
    show ((addGrowth none (monthlyTotals fact)).get ⟨i + 1, h1⟩).revenue_growth_rate
        = Fl.val ((((addGrowth none (monthlyTotals fact)).get ⟨i + 1, h1⟩).total_revenue
            - ((addGrowth none (monthlyTotals fact)).get ⟨i, h0⟩).total_revenue)
            / ((addGrowth none (monthlyTotals fact)).get ⟨i, h0⟩).total_revenue * 100)
    rw [hg, ht0, ht1]
    unfold pctChange100
    rw [if_neg (ne_of_gt hpos')]

/-- Source tables for a two-month fact table with revenues 10 and 30. -/
def factC2 : List FactRow :=
  full_data [⟨1, 1, 10⟩, ⟨2, 1, 30⟩]
    [⟨1, 1, some ⟨0, 5⟩⟩, ⟨2, 2, some ⟨1, 9⟩⟩] [⟨1⟩, ⟨2⟩] [⟨1, some 1⟩]

theorem factC2_eval :
    monthly_revenue factC2 = [⟨0, 10, Fl.nan⟩, ⟨1, 30, Fl.val 200⟩] := by
  have hfact : factC2
      = [⟨1, 1, 10, some 1, some ⟨0, 5⟩, some 1⟩,
         ⟨2, 1, 30, some 2, some ⟨1, 9⟩, some 1⟩] := rfl
  rw [hfact]
  norm_num +decide [monthly_revenue, monthlyTotals, monthsOf, sortedKeys, insKey,
    monthKey, sumPricesWith, addGrowth, List.filter, pctChange100]

/-- C2 witness: the growth-rate identity discharged on the concrete two-month
table with revenues 10 and 30 (growth 200 percent). -/
theorem c2_witness :
    (0 + 1 < (monthly_revenue factC2).length ∧
     0 < ((monthly_revenue factC2).getD 0 default).total_revenue) ∧
    (List.Pairwise (· < ·) ((monthly_revenue factC2).map MonthRow.order_month) ∧
     ((monthly_revenue factC2).getD 1 default).revenue_growth_rate
       = Fl.val ((((monthly_revenue factC2).getD 1 default).total_revenue
           - ((monthly_revenue factC2).getD 0 default).total_revenue)
           / ((monthly_revenue factC2).getD 0 default).total_revenue * 100)) :=
  ⟨⟨by rw [factC2_eval]; norm_num, by rw [factC2_eval]; norm_num⟩,
   c2_growth_rate_formula factC2 0 (by rw [factC2_eval]; norm_num)
     (by rw [factC2_eval]; norm_num)⟩

/-- Source tables for a two-month fact table whose first month's revenue is
exactly zero (one line with price 0) and whose second month has revenue 10. -/
def factC3 : List FactRow :=
  full_data [⟨1, 1, 0⟩, ⟨2, 1, 10⟩]
    [⟨1, 1, some ⟨0, 0⟩⟩, ⟨2, 2, some ⟨1, 0⟩⟩] [⟨1⟩, ⟨2⟩] [⟨1, some 1⟩]

theorem factC3_eval :
    monthly_revenue factC3 = [⟨0, 0, Fl.nan⟩, ⟨1, 10, Fl.posInf⟩] := by
  have hfact : factC3
      = [⟨1, 1, 0, some 1, some ⟨0, 0⟩, some 1⟩,
         ⟨2, 1, 10, some 2, some ⟨1, 0⟩, some 1⟩] := rfl
  rw [hfact]
  norm_num +decide [monthly_revenue, monthlyTotals, monthsOf, sortedKeys, insKey,
    monthKey, sumPricesWith, addGrowth, List.filter, pctChange100]

/-- C3 counterexample: in a fact table whose first month has total revenue
exactly 0 and whose next month has revenue 10, `pct_change` yields positive
infinity for the later month, not the missing sentinel, so the claimed
"sentinel, never infinite" behaviour fails. -/
theorem c3_counterexample :
    ((monthly_revenue factC3).getD 0 default).total_revenue = 0 ∧
    ((monthly_revenue factC3).getD 1 default).revenue_growth_rate = Fl.posInf ∧
    ((monthly_revenue factC3).getD 1 default).revenue_growth_rate ≠ Fl.nan := by
  rw [factC3_eval]
  refine ⟨rfl, rfl, ?_⟩
  decide

/-- C3 (amended): when a month's total revenue is exactly zero and a later
month follows it, the next row's growth rate is the missing sentinel (NaN)
only when the current revenue is also zero; otherwise `pct_change` computes a
signed infinity (positive infinity for positive current revenue, negative
infinity for negative current revenue). -/
theorem c3_zero_prior_growth_amended (fact : List FactRow) (i : ℕ)
    (h1 : i + 1 < (monthly_revenue fact).length)
    (hz : ((monthly_revenue fact).getD i default).total_revenue = 0) :
    ((monthly_revenue fact).getD (i + 1) default).revenue_growth_rate
      = (if 0 < ((monthly_revenue fact).getD (i + 1) default).total_revenue
         then Fl.posInf
         else if ((monthly_revenue fact).getD (i + 1) default).total_revenue < 0
         then Fl.negInf
         else Fl.nan) := by
  have h0 : i < (monthly_revenue fact).length := Nat.lt_of_succ_lt h1
  rw [getD_of_lt (monthly_revenue fact) (i + 1) h1]
  rw [getD_of_lt (monthly_revenue fact) i h0] at hz
  have hlen0 : i < (monthlyTotals fact).length := by
    rw [← addGrowth_length none (monthlyTotals fact)]
    exact h0
  have hlen1 : i + 1 < (monthlyTotals fact).length := by
    rw [← addGrowth_length none (monthlyTotals fact)]
    exact h1
  have hg := addGrowth_get_growth_succ none (monthlyTotals fact) i h1 hlen0 hlen1
  have ht0 := addGrowth_get_total none (monthlyTotals fact) i h0 hlen0
  have ht1 := addGrowth_get_total none (monthlyTotals fact) (i + 1) h1 hlen1
  have hz' : ((monthlyTotals fact).get ⟨i, hlen0⟩).2 = 0 := by
    rw [← ht0]
    exact hz
  show ((addGrowth none (monthlyTotals fact)).get ⟨i + 1, h1⟩).revenue_growth_rate
      = (if 0 < ((addGrowth none (monthlyTotals fact)).get ⟨i + 1, h1⟩).total_revenue
         then Fl.posInf
         else if ((addGrowth none (monthlyTotals fact)).get ⟨i + 1, h1⟩).total_revenue < 0
         then Fl.negInf
         else Fl.nan)
  rw [hg, ht1]
  unfold pctChange100
  rw [if_pos hz']

/-- C3 witness: the amended behaviour discharged on the concrete table whose
months have revenues 0 and 10. -/
theorem c3_witness :
    (0 + 1 < (monthly_revenue factC3).length ∧
     ((monthly_revenue factC3).getD 0 default).total_revenue = 0) ∧
    ((monthly_revenue factC3).getD 1 default).revenue_growth_rate
      = (if 0 < ((monthly_revenue factC3).getD 1 default).total_revenue
         then Fl.posInf
         else if ((monthly_revenue factC3).getD 1 default).total_revenue < 0
         then Fl.negInf
         else Fl.nan) :=
  ⟨⟨by rw [factC3_eval]; norm_num, by rw [factC3_eval]; norm_num⟩,
   c3_zero_prior_growth_amended factC3 0 (by rw [factC3_eval]; norm_num)
     (by rw [factC3_eval]; norm_num)⟩

/-- C4: whenever `monthly_revenue` has a first row at all, that row's growth
rate is the missing sentinel (NaN, stored as NULL), and in particular it is
never the number 0. -/
theorem c4_first_growth_sentinel (fact : List FactRow)
    (h : monthly_revenue fact ≠ []) :
    (monthly_revenue fact).headI.revenue_growth_rate = Fl.nan ∧
    (monthly_revenue fact).headI.revenue_growth_rate ≠ Fl.val 0 := by
  cases hmt : monthlyTotals fact with
  | nil =>
    exfalso
    apply h
    unfold monthly_revenue
    rw [hmt]
    rfl
  | cons a rest =>
    obtain ⟨m, v⟩ := a
    have hrw : monthly_revenue fact
        = { order_month := m, total_revenue := v, revenue_growth_rate := Fl.nan }
          :: addGrowth (some v) rest := by
      unfold monthly_revenue
      rw [hmt]
      rfl
    rw [hrw]
    exact ⟨rfl, fun hcontra => Fl.noConfusion hcontra⟩

/-- Source tables for a one-month fact table. -/
def factC4 : List FactRow :=
  full_data [⟨1, 1, 5⟩] [⟨1, 1, some ⟨0, 0⟩⟩] [⟨1⟩] [⟨1, some 1⟩]

theorem factC4_eval : monthly_revenue factC4 = [⟨0, 5, Fl.nan⟩] := by
  have hfact : factC4 = [⟨1, 1, 5, some 1, some ⟨0, 0⟩, some 1⟩] := rfl
  rw [hfact]
  norm_num +decide [monthly_revenue, monthlyTotals, monthsOf, sortedKeys, insKey,
    monthKey, sumPricesWith, addGrowth, List.filter, pctChange100]

/-- C4 witness: the sentinel property of the first row discharged on a
concrete one-month fact table. -/
theorem c4_witness :
    monthly_revenue factC4 ≠ [] ∧
    ((monthly_revenue factC4).headI.revenue_growth_rate = Fl.nan ∧
     (monthly_revenue factC4).headI.revenue_growth_rate ≠ Fl.val 0) :=
  ⟨by rw [factC4_eval]; simp,
   c4_first_growth_sentinel factC4 (by rw [factC4_eval]; simp)⟩

/-- C5: for every fact table, `order_frequency` of a `customer_features` row
is the number of distinct order ids among that customer's rows (not its line
count), and `order_count` of a `product_performance` row is the number of
distinct order ids among that category's rows. -/
theorem c5_distinct_order_counts (fact : List FactRow)
    (row : CustomerRow) (hrow : row ∈ customer_features fact)
    (prow : ProdRow) (hprow : prow ∈ product_performance fact) :
    row.order_frequency
      = ((fact.filter (fun r => decide (r.customer_id = some row.customer_id))).map
          FactRow.order_id).toFinset.card ∧
    prow.order_count
      = ((fact.filter (fun r => decide (r.product_category_name
            = some prow.product_category_name))).map FactRow.order_id).toFinset.card := by
  constructor
  · rcases List.mem_map.mp hrow with ⟨c, hc, rfl⟩
    show nuniqueOrders fact (fun r => decide (r.customer_id = some c)) = _
    unfold nuniqueOrders
    exact (List.card_toFinset _).symm
  · rcases List.mem_map.mp hprow with ⟨g, hg, rfl⟩
    show nuniqueOrders fact (fun r => decide (r.product_category_name = some g)) = _
    unfold nuniqueOrders
    exact (List.card_toFinset _).symm

/-- Source tables realizing the spec's examples: customer 1 has three line
items across two orders, and category 7 appears twice within order 1 only. -/
def factC5 : List FactRow :=
  full_data [⟨1, 1, 3⟩, ⟨1, 2, 4⟩, ⟨2, 3, 5⟩]
    [⟨1, 1, some ⟨0, 0⟩⟩, ⟨2, 1, some ⟨0, 1⟩⟩] [⟨1⟩]
    [⟨1, some 7⟩, ⟨2, some 7⟩, ⟨3, some 8⟩]

theorem factC5_custeval :
    customer_features factC5 = [⟨1, 12, 2, some 0⟩] := by
  have hfact : factC5
      = [⟨1, 1, 3, some 1, some ⟨0, 0⟩, some 7⟩,
         ⟨1, 2, 4, some 1, some ⟨0, 0⟩, some 7⟩,
         ⟨2, 3, 5, some 1, some ⟨0, 1⟩, some 8⟩] := rfl
  rw [hfact]
  norm_num +decide [customer_features, customersOf, sortedKeys, insKey,
    sumPricesWith, nuniqueOrders, recencyDays, reference_date,
    customer_last_order, maxTs, List.filter, List.dedup, Int.floor_zero,
    List.filterMap_cons, List.foldr_cons, List.foldr_nil]

theorem factC5_prodeval :
    product_performance factC5 = [⟨7, 7, 1⟩, ⟨8, 5, 1⟩] := by
  have hfact : factC5
      = [⟨1, 1, 3, some 1, some ⟨0, 0⟩, some 7⟩,
         ⟨1, 2, 4, some 1, some ⟨0, 0⟩, some 7⟩,
         ⟨2, 3, 5, some 1, some ⟨0, 1⟩, some 8⟩] := rfl
  rw [hfact]
  norm_num +decide [product_performance, categoriesOf, sortedKeys, insKey,
    sumPricesWith, nuniqueOrders, List.filter, List.dedup,
    List.filterMap_cons, List.foldr_cons, List.foldr_nil]

/-- C5 witness: on the example table, the customer with three line items over
two orders has order_frequency 2, and the category appearing twice inside one
order has order_count 1; both equal the distinct-order counts. -/
theorem c5_witness :
    ((⟨1, 12, 2, some 0⟩ : CustomerRow) ∈ customer_features factC5 ∧
     (⟨7, 7, 1⟩ : ProdRow) ∈ product_performance factC5) ∧
    ((⟨1, 12, 2, some 0⟩ : CustomerRow).order_frequency
       = ((factC5.filter (fun r => decide (r.customer_id
             = some (⟨1, 12, 2, some 0⟩ : CustomerRow).customer_id))).map
           FactRow.order_id).toFinset.card ∧
     (⟨7, 7, 1⟩ : ProdRow).order_count
       = ((factC5.filter (fun r => decide (r.product_category_name
             = some (⟨7, 7, 1⟩ : ProdRow).product_category_name))).map
           FactRow.order_id).toFinset.card) :=
  ⟨⟨by rw [factC5_custeval]; exact List.mem_singleton.mpr rfl,
    by rw [factC5_prodeval]; exact List.mem_cons_self _ _⟩,
   c5_distinct_order_counts factC5
     ⟨1, 12, 2, some 0⟩ (by rw [factC5_custeval]; exact List.mem_singleton.mpr rfl)
     ⟨7, 7, 1⟩ (by rw [factC5_prodeval]; exact List.mem_cons_self _ _)⟩

/-- Source tables in which two different customers both purchased at the
globally latest timestamp. -/
def factC6 : List FactRow :=
  full_data [⟨1, 1, 5⟩, ⟨2, 1, 5⟩]
    [⟨1, 1, some ⟨0, 0⟩⟩, ⟨2, 2, some ⟨0, 0⟩⟩] [⟨1⟩, ⟨2⟩] [⟨1, some 1⟩]

theorem factC6_eval :
    customer_features factC6 = [⟨1, 5, 1, some 0⟩, ⟨2, 5, 1, some 0⟩] := by
  have hfact : factC6
      = [⟨1, 1, 5, some 1, some ⟨0, 0⟩, some 1⟩,
         ⟨2, 1, 5, some 2, some ⟨0, 0⟩, some 1⟩] := rfl
  rw [hfact]
  norm_num +decide [customer_features, customersOf, sortedKeys, insKey,
    sumPricesWith, nuniqueOrders, recencyDays, reference_date,
    customer_last_order, maxTs, List.filter, List.dedup, Int.floor_zero,
    List.filterMap_cons, List.foldr_cons, List.foldr_nil]

/-- C6 counterexample: when two customers tie on the globally latest purchase
timestamp, both get recency_days = 0, so "exactly one customer has
recency_days = 0" fails. -/
theorem c6_counterexample :
    ((customer_features factC6).filter
        (fun row => decide (row.recency_days = some 0))).length = 2 ∧
    ((customer_features factC6).filter
        (fun row => decide (row.recency_days = some 0))).length ≠ 1 := by
  rw [factC6_eval]
  constructor
  · rfl
  · decide

/-- C6 (amended): every `customer_features` row with a defined recency has
recency_days at least 0, and every customer whose own latest purchase
timestamp coincides with the global maximum has recency_days = 0; several
customers can satisfy this at once, so "exactly one" does not hold. -/
theorem c6_recency_amended (fact : List FactRow) (row : CustomerRow)
    (hrow : row ∈ customer_features fact) :
    (∀ d : ℤ, row.recency_days = some d → 0 ≤ d) ∧
    (∀ a b : Timestamp, reference_date fact = some a →
      customer_last_order fact row.customer_id = some b → b.t = a.t →
      row.recency_days = some 0) := by
  rcases List.mem_map.mp hrow with ⟨c, hc, rfl⟩
  constructor
  · intro d hd
    have hd' : recencyDays fact c = some d := hd
    unfold recencyDays at hd'
    cases href : reference_date fact with
    | none =>
      rw [href] at hd'
      cases hd'
    | some a =>
      cases hlast : customer_last_order fact c with
      | none =>
        rw [href, hlast] at hd'
        cases hd'
      | some b =>
        rw [href, hlast] at hd'
        have hdd : ⌊a.t - b.t⌋ = d := by
          simpa using hd'
        have hb1 : b ∈ (fact.filter
            (fun r => decide (r.customer_id = some c))).filterMap
            FactRow.order_purchase_timestamp := maxTs_mem _ _ hlast
        rcases List.mem_filterMap.mp hb1 with ⟨r, hr, hrts⟩
        have hb2 : b ∈ fact.filterMap FactRow.order_purchase_timestamp :=
          List.mem_filterMap.mpr ⟨r, List.mem_of_mem_filter hr, hrts⟩
        have hle : b.t ≤ a.t := maxTs_le _ a href b hb2
        rw [← hdd]
        exact Int.le_floor.mpr (by simpa using sub_nonneg.mpr hle)
  · intro a b href hlast hteq
    show recencyDays fact c = some 0
    unfold recencyDays
    rw [href, hlast]
    simp only [Option.some.injEq]
    rw [hteq, sub_self]
    exact Int.floor_zero

/-- Source tables with a single customer, holding the global maximum. -/
def factC6w : List FactRow :=
  full_data [⟨1, 1, 5⟩] [⟨1, 1, some ⟨0, 3⟩⟩] [⟨1⟩] [⟨1, some 1⟩]

theorem factC6w_eval :
    customer_features factC6w = [⟨1, 5, 1, some 0⟩] := by
  have hfact : factC6w = [⟨1, 1, 5, some 1, some ⟨0, 3⟩, some 1⟩] := rfl
  rw [hfact]
  norm_num +decide [customer_features, customersOf, sortedKeys, insKey,
    sumPricesWith, nuniqueOrders, recencyDays, reference_date,
    customer_last_order, maxTs, List.filter, List.dedup, Int.floor_zero,
    List.filterMap_cons, List.foldr_cons, List.foldr_nil]

/-- C6 witness: the amended recency properties discharged on the
single-customer table. -/
theorem c6_witness :
    ((⟨1, 5, 1, some 0⟩ : CustomerRow) ∈ customer_features factC6w) ∧
    ((∀ d : ℤ, (⟨1, 5, 1, some 0⟩ : CustomerRow).recency_days = some d → 0 ≤ d) ∧
     (∀ a b : Timestamp, reference_date factC6w = some a →
       customer_last_order factC6w
         (⟨1, 5, 1, some 0⟩ : CustomerRow).customer_id = some b → b.t = a.t →
       (⟨1, 5, 1, some 0⟩ : CustomerRow).recency_days = some 0)) :=
  ⟨by rw [factC6w_eval]; exact List.mem_singleton.mpr rfl,
   c6_recency_amended factC6w ⟨1, 5, 1, some 0⟩
     (by rw [factC6w_eval]; exact List.mem_singleton.mpr rfl)⟩

/-- C7: a missing required grouping-key column (purchase timestamp, order id,
customer id, product key) makes the multi-table pipeline raise before it
reaches the writes, and a missing required column makes the online-retail
variant raise in its schema check; in both variants the four output tables
are produced only on the all-checks-pass path, so no partial set of
aggregate tables is ever persisted. -/
theorem c7_missing_column_aborts (t : MultiCols) (cols : List Col) (c : Col)
    (hmulti : Col.order_purchase_timestamp ∉ allColsOf t ∨
      (Col.order_id ∉ t.order_items_cols ∨ Col.order_id ∉ t.orders_cols) ∨
      (Col.customer_id ∉ t.order_items_cols ++ t.orders_cols ∨
        Col.customer_id ∉ t.customers_cols) ∨
      Col.product_category_name ∉ allColsOf t)
    (hc : c ∈ requiredColumnsOnline) (hcols : c ∉ cols) :
    (∃ e, runMultiSchema t = Except.error e) ∧
    (∃ e, runOnlineSchema cols = Except.error e) := by
  constructor
  · unfold runMultiSchema
    split_ifs with h1 h2 h3 h4 h5 h6 h7 h8
    · exfalso
      rcases hmulti with hm | (hm | hm) | (hm | hm) | hm
      · exact hm h4
      · exact hm h1.1
      · exact hm h1.2
      · exact hm h2.1
      · exact hm h2.2
      · exact hm h8
    all_goals exact ⟨_, rfl⟩
  · unfold runOnlineSchema
    cases hfind : requiredColumnsOnline.find? (fun x => decide (x ∉ cols)) with
    | some e => exact ⟨_, rfl⟩
    | none =>
      exfalso
      have hnone := List.find?_eq_none.mp hfind c hc
      simp only [decide_eq_true_eq, not_not] at hnone
      exact hcols hnone

/-- Column sets with `order_purchase_timestamp` absent everywhere. -/
def tC7 : MultiCols :=
  ⟨[Col.order_id, Col.customer_id],
   [Col.order_id, Col.product_id, Col.price],
   [Col.customer_id],
   [Col.product_id, Col.product_category_name]⟩

/-- C7 witness: the abort behaviour discharged on a concrete input whose
orders table lacks the purchase-timestamp column, and an online-retail input
lacking the StockCode column. -/
theorem c7_witness :
    (Col.order_purchase_timestamp ∉ allColsOf tC7 ∨
      (Col.order_id ∉ tC7.order_items_cols ∨ Col.order_id ∉ tC7.orders_cols) ∨
      (Col.customer_id ∉ tC7.order_items_cols ++ tC7.orders_cols ∨
        Col.customer_id ∉ tC7.customers_cols) ∨
      Col.product_category_name ∉ allColsOf tC7) ∧
    (Col.stockCode ∈ requiredColumnsOnline ∧ Col.stockCode ∉ [Col.invoiceNo]) ∧
    ((∃ e, runMultiSchema tC7 = Except.error e) ∧
     (∃ e, runOnlineSchema [Col.invoiceNo] = Except.error e)) :=
  ⟨by decide, ⟨by decide, by decide⟩,
   c7_missing_column_aborts tC7 [Col.invoiceNo] Col.stockCode (by decide)
     (by decide) (by decide)⟩

theorem match_filter_le_one {B K : Type} [DecidableEq K] (rs : List B) (rk : B → K)
    (hu : ∀ k : K, (rs.filter (fun b => decide (rk b = k))).length ≤ 1)
    (x : Option K) :
    (rs.filter (fun b => decide (x ≠ none ∧ x = some (rk b)))).length ≤ 1 := by
  cases x with
  | none =>
    have hz : (rs.filter (fun b =>
        decide ((none : Option K) ≠ none ∧ (none : Option K) = some (rk b)))) = [] := by
      apply List.filter_eq_nil_iff.mpr
      intro b _
      simp
    rw [hz]
    exact Nat.zero_le 1
  | some k =>
    have heq : (rs.filter (fun b =>
          decide ((some k : Option K) ≠ none ∧ (some k : Option K) = some (rk b))))
        = rs.filter (fun b => decide (rk b = k)) := by
      apply List.filter_congr
      intro b _
      simp [decide_eq_decide, eq_comm]
    rw [heq]
    exact hu k

/-- C8: every `order_items` row survives the three left joins (at least one
fact row per line item, and its item attributes are carried over), and when
every join key matches at most one row of its right-hand table the fact table
has exactly one row per `order_items` row. -/
theorem c8_left_join_preserves (order_items : List OrderItem) (orders : List OrderRec)
    (customers : List CustomerRec) (products : List ProductRec) :
    order_items.length ≤ (full_data order_items orders customers products).length ∧
    (∀ it ∈ order_items, ∃ r ∈ full_data order_items orders customers products,
       r.order_id = it.order_id ∧ r.product_id = it.product_id ∧ r.price = it.price) ∧
    ((∀ k : ℕ, (orders.filter (fun o => decide (o.order_id = k))).length ≤ 1) →
     (∀ k : ℕ, (customers.filter (fun c => decide (c.customer_id = k))).length ≤ 1) →
     (∀ k : ℕ, (products.filter (fun p => decide (p.product_id = k))).length ≤ 1) →
     (full_data order_items orders customers products).length = order_items.length) := by
  refine ⟨?_, ?_, ?_⟩
  · unfold full_data
    rw [List.length_map]
    have g1 := leftJoinO_length_ge order_items (fun it => some it.order_id)
      orders (fun o => some o.order_id)
    have g2 := leftJoinO_length_ge
      (leftJoinO order_items (fun it => some it.order_id) orders (fun o => some o.order_id))
      (fun p => p.2.map OrderRec.customer_id) customers (fun c => some c.customer_id)
    have g3 := leftJoinO_length_ge
      (leftJoinO
        (leftJoinO order_items (fun it => some it.order_id) orders (fun o => some o.order_id))
        (fun p => p.2.map OrderRec.customer_id) customers (fun c => some c.customer_id))
      (fun p => some p.1.1.product_id) products (fun pr => some pr.product_id)
    exact le_trans g1 (le_trans g2 g3)
  · intro it hit
    rcases leftJoinO_mem order_items (fun it => some it.order_id)
      orders (fun o => some o.order_id) it hit with ⟨ob1, hm1⟩
    rcases leftJoinO_mem _ (fun p => p.2.map OrderRec.customer_id)
      customers (fun c => some c.customer_id) (it, ob1) hm1 with ⟨ob2, hm2⟩
    rcases leftJoinO_mem _ (fun p => some p.1.1.product_id)
      products (fun pr => some pr.product_id) ((it, ob1), ob2) hm2 with ⟨ob3, hm3⟩
    exact ⟨_, List.mem_map.mpr ⟨(((it, ob1), ob2), ob3), hm3, rfl⟩, rfl, rfl, rfl⟩
  · intro h1 h2 h3
    unfold full_data
    rw [List.length_map]
    rw [leftJoinO_length_eq
      (leftJoinO
        (leftJoinO order_items (fun it => some it.order_id) orders (fun o => some o.order_id))
        (fun p => p.2.map OrderRec.customer_id) customers (fun c => some c.customer_id))
      (fun p => some p.1.1.product_id) products (fun pr => some pr.product_id)
      (fun a _ => match_filter_le_one products ProductRec.product_id h3 (some a.1.1.product_id))]
    rw [leftJoinO_length_eq
      (leftJoinO order_items (fun it => some it.order_id) orders (fun o => some o.order_id))
      (fun p => p.2.map OrderRec.customer_id) customers (fun c => some c.customer_id)
      (fun a _ => match_filter_le_one customers CustomerRec.customer_id h2
        (a.2.map OrderRec.customer_id))]
    rw [leftJoinO_length_eq order_items (fun it => some it.order_id)
      orders (fun o => some o.order_id)
      (fun a _ => match_filter_le_one orders OrderRec.order_id h1 (some a.order_id))]

/-- Raw tables with one line item and one-to-one join keys. -/
def itemsC8 : List OrderItem := [⟨1, 1, 2⟩]

def ordersC8 : List OrderRec := [⟨1, 1, some ⟨0, 0⟩⟩]

def customersC8 : List CustomerRec := [⟨1⟩]

def productsC8 : List ProductRec := [⟨1, some 1⟩]

/-- C8 witness: the join-preservation properties discharged on concrete
one-row tables, including the exact-count conclusion under the discharged
at-most-one-match hypotheses. -/
theorem c8_witness :
    ((∀ k : ℕ, (ordersC8.filter (fun o => decide (o.order_id = k))).length ≤ 1) ∧
     (∀ k : ℕ, (customersC8.filter (fun c => decide (c.customer_id = k))).length ≤ 1) ∧
     (∀ k : ℕ, (productsC8.filter (fun p => decide (p.product_id = k))).length ≤ 1)) ∧
    (itemsC8.length ≤ (full_data itemsC8 ordersC8 customersC8 productsC8).length ∧
     (∀ it ∈ itemsC8, ∃ r ∈ full_data itemsC8 ordersC8 customersC8 productsC8,
        r.order_id = it.order_id ∧ r.product_id = it.product_id ∧ r.price = it.price) ∧
     ((∀ k : ℕ, (ordersC8.filter (fun o => decide (o.order_id = k))).length ≤ 1) →
      (∀ k : ℕ, (customersC8.filter (fun c => decide (c.customer_id = k))).length ≤ 1) →
      (∀ k : ℕ, (productsC8.filter (fun p => decide (p.product_id = k))).length ≤ 1) →
      (full_data itemsC8 ordersC8 customersC8 productsC8).length = itemsC8.length)) ∧
    (full_data itemsC8 ordersC8 customersC8 productsC8).length = itemsC8.length := by
  have hu1 : ∀ k : ℕ, (ordersC8.filter (fun o => decide (o.order_id = k))).length ≤ 1 :=
    fun k => List.length_filter_le _ _
  have hu2 : ∀ k : ℕ, (customersC8.filter (fun c => decide (c.customer_id = k))).length ≤ 1 :=
    fun k => List.length_filter_le _ _
  have hu3 : ∀ k : ℕ, (productsC8.filter (fun p => decide (p.product_id = k))).length ≤ 1 :=
    fun k => List.length_filter_le _ _
  exact ⟨⟨hu1, hu2, hu3⟩,
    c8_left_join_preserves itemsC8 ordersC8 customersC8 productsC8,
    (c8_left_join_preserves itemsC8 ordersC8 customersC8 productsC8).2.2 hu1 hu2 hu3⟩

/-- C9: running the pipeline a second time on the same input leaves the store
exactly as the first run did, and the four persisted tables after a run do
not depend on what the store previously held in those four slots (each
`to_sql(..., if_exists='replace')` replaces its table wholesale). -/
theorem c9_idempotent_runs (inp : SourceTables) (s s1 s2 : Store)
    (hother : s1.other_tabs = s2.other_tabs) :
    runPipelineStore inp (runPipelineStore inp s) = runPipelineStore inp s ∧
    runPipelineStore inp s1 = runPipelineStore inp s2 := by
  constructor
  · rfl
  · unfold runPipelineStore persistRun
    rw [hother]

/-- Concrete source tables for the idempotence witness. -/
def inpC9 : SourceTables :=
  ⟨[⟨1, 1, some ⟨0, 0⟩⟩], [⟨1, 1, 5⟩], [⟨1⟩], [⟨1, some 1⟩]⟩

/-- A store holding no output tables yet, plus one unrelated table. -/
def storeC9a : Store := ⟨none, none, none, none, [7]⟩

/-- A store already holding a stale `monthly_revenue` table. -/
def storeC9b : Store := ⟨some [], none, none, none, [7]⟩

/-- C9 witness: idempotence and prior-state independence discharged on a
concrete input and two concrete stores differing in a stale table. -/
theorem c9_witness :
    storeC9a.other_tabs = storeC9b.other_tabs ∧
    (runPipelineStore inpC9 (runPipelineStore inpC9 storeC9a)
       = runPipelineStore inpC9 storeC9a ∧
     runPipelineStore inpC9 storeC9a = runPipelineStore inpC9 storeC9b) :=
  ⟨rfl, c9_idempotent_runs inpC9 storeC9a storeC9a storeC9b rfl⟩

theorem sumPricesWith_middle (l1 l2 : List FactRow) (r : FactRow) (p : FactRow → Bool)
    (hp : p r = true) :
    sumPricesWith (l1 ++ r :: l2) p = r.price + sumPricesWith (l1 ++ l2) p := by
  rw [sumPricesWith_append, sumPricesWith_cons, sumPricesWith_append, hp]
  rw [if_pos rfl]
  ring

/-- Fact table produced by a join in which the order row is unmatched, so the
line's purchase timestamp and product category are both missing. -/
def factC10 : List FactRow := full_data [⟨1, 1, 5⟩] [⟨1, 1, none⟩] [⟨1⟩] [⟨1, none⟩]

/-- C10 counterexample: a fact row with a missing purchase timestamp and a
missing product category has price 5, yet `product_performance` is empty, so
its price reaches no product row's `total_sales`; the claim that every
missing-timestamp row still contributes to `total_sales` fails. -/
theorem c10_counterexample :
    factC10.headI.order_purchase_timestamp = none ∧
    factC10.headI.price = 5 ∧
    factC10.headI.product_category_name = none ∧
    product_performance factC10 = [] ∧
    ((product_performance factC10).map ProdRow.total_sales).sum = 0 := by
  have hfact : factC10 = [⟨1, 1, 5, some 1, none, none⟩] := rfl
  rw [hfact]
  exact ⟨rfl, rfl, rfl, rfl, rfl⟩

/-- C10 (amended): rows with a missing purchase timestamp are excluded from
the month grouping (`monthly_revenue` is unchanged when they are filtered
out), while such a row still adds its price to its order's `order_values`
group, to its customer's `total_spent` group whenever its customer id is
present, and to its category's `total_sales` group whenever its product
category is present; with a missing customer id or category the row is
dropped from that grouping as well. -/
theorem c10_missing_timestamp_amended (fact fact1 fact2 : List FactRow) (r : FactRow)
    (hsplit : fact = fact1 ++ r :: fact2)
    (hts : r.order_purchase_timestamp = none) :
    monthly_revenue fact
      = monthly_revenue (fact.filter (fun x => x.order_purchase_timestamp.isSome)) ∧
    (sumPricesWith fact (fun x => decide (x.order_id = r.order_id))
       = r.price + sumPricesWith (fact1 ++ fact2)
           (fun x => decide (x.order_id = r.order_id)) ∧
     r.order_id ∈ ordersOf fact) ∧
    (∀ c : ℕ, r.customer_id = some c →
      sumPricesWith fact (fun x => decide (x.customer_id = some c))
        = r.price + sumPricesWith (fact1 ++ fact2)
            (fun x => decide (x.customer_id = some c)) ∧
      c ∈ customersOf fact) ∧
    (∀ g : ℕ, r.product_category_name = some g →
      sumPricesWith fact (fun x => decide (x.product_category_name = some g))
        = r.price + sumPricesWith (fact1 ++ fact2)
            (fun x => decide (x.product_category_name = some g)) ∧
      g ∈ categoriesOf fact) := by
  have hrmem : r ∈ fact := by
    rw [hsplit]
    exact List.mem_append.mpr (Or.inr (List.mem_cons_self r fact2))
  refine ⟨?_, ⟨?_, ?_⟩, ?_, ?_⟩
  · unfold monthly_revenue
    have hmt : monthlyTotals (fact.filter (fun x => x.order_purchase_timestamp.isSome))
        = monthlyTotals fact := by
      unfold monthlyTotals monthsOf
      rw [filterMap_monthKey_filter]
      apply List.map_congr_left
      intro m _
      rw [sumPricesWith_month_filter]
    rw [hmt]
  · rw [hsplit]
    exact sumPricesWith_middle fact1 fact2 r _ (by simp)
  · unfold ordersOf
    rw [mem_sortedKeys]
    exact List.mem_map.mpr ⟨r, hrmem, rfl⟩
  · intro c hcid
    constructor
    · rw [hsplit]
      exact sumPricesWith_middle fact1 fact2 r _ (by simp [hcid])
    · unfold customersOf
      rw [mem_sortedKeys]
      exact List.mem_filterMap.mpr ⟨r, hrmem, hcid⟩
  · intro g hg
    constructor
    · rw [hsplit]
      exact sumPricesWith_middle fact1 fact2 r _ (by simp [hg])
    · unfold categoriesOf
      rw [mem_sortedKeys]
      exact List.mem_filterMap.mpr ⟨r, hrmem, hg⟩

/-- C10 witness: the amended contribution properties discharged on the
concrete one-row fact table with a missing timestamp. -/
theorem c10_witness :
    (factC10 = [] ++ (⟨1, 1, 5, some 1, none, none⟩ : FactRow) :: [] ∧
     (⟨1, 1, 5, some 1, none, none⟩ : FactRow).order_purchase_timestamp = none) ∧
    (monthly_revenue factC10
       = monthly_revenue (factC10.filter (fun x => x.order_purchase_timestamp.isSome)) ∧
     (sumPricesWith factC10 (fun x =>
          decide (x.order_id = (⟨1, 1, 5, some 1, none, none⟩ : FactRow).order_id))
        = (⟨1, 1, 5, some 1, none, none⟩ : FactRow).price
            + sumPricesWith ([] ++ []) (fun x =>
                decide (x.order_id = (⟨1, 1, 5, some 1, none, none⟩ : FactRow).order_id)) ∧
      (⟨1, 1, 5, some 1, none, none⟩ : FactRow).order_id ∈ ordersOf factC10) ∧
     (∀ c : ℕ, (⟨1, 1, 5, some 1, none, none⟩ : FactRow).customer_id = some c →
       sumPricesWith factC10 (fun x => decide (x.customer_id = some c))
         = (⟨1, 1, 5, some 1, none, none⟩ : FactRow).price
             + sumPricesWith ([] ++ []) (fun x => decide (x.customer_id = some c)) ∧
       c ∈ customersOf factC10) ∧
     (∀ g : ℕ, (⟨1, 1, 5, some 1, none, none⟩ : FactRow).product_category_name = some g →
       sumPricesWith factC10 (fun x => decide (x.product_category_name = some g))
         = (⟨1, 1, 5, some 1, none, none⟩ : FactRow).price
             + sumPricesWith ([] ++ []) (fun x => decide (x.product_category_name = some g)) ∧
       g ∈ categoriesOf factC10)) :=
  ⟨⟨rfl, rfl⟩,
   c10_missing_timestamp_amended factC10 [] [] ⟨1, 1, 5, some 1, none, none⟩ rfl rfl⟩
